import Mathlib

/-!
Verification of the worker node (`slave.py`) of the dist_test distributed
test-execution system, against its natural-language specification.

The Python source is shallowly embedded: each relevant function or loop body
becomes a Lean definition over explicit state, with external effects
(filesystem, HTTP, subprocess, clock) abstracted as oracle parameters.
-/

namespace DistTest

/-! ## Retry Anti-Affinity Cache (`RetryCache`, slave.py lines 40-78)

The Python class keeps a `collections.OrderedDict` mapping retry-id strings to
touch counts.  We embed the dict as an insertion-ordered association list
(front = oldest inserted, back = newest inserted), with unique keys in every
state reachable by the class's own operations.  Dict primitives:

* `dictLookup` models `item in d` / `d[item]` (read),
* `dictSet` models `d[item] = v` on a present key (Python keeps the key's
  position and replaces the value),
* `dictErase` models `del d[item]`,
* appending `(item, v)` at the back models `d[item] = v` on an absent key,
* `List.dropLast` models `d.popitem()` (Python 3 `OrderedDict.popitem()`
  pops the most recently inserted entry by default, i.e. `last=True`).
-/

def dictLookup : List (String × Nat) → String → Option Nat
  | [], _ => none
  | p :: rest, a => if p.1 = a then some p.2 else dictLookup rest a

def dictSet (l : List (String × Nat)) (a : String) (v : Nat) : List (String × Nat) :=
  l.map (fun p => if p.1 = a then (a, v) else p)

def dictErase (l : List (String × Nat)) (a : String) : List (String × Nat) :=
  l.filter (fun p => p.1 != a)

structure RetryCache where
  cache : List (String × Nat)
  max_size : Nat
  max_count : Nat
deriving DecidableEq

/-- `RetryCache.get` (slave.py 62-72): absent keys return `None`; for a
present key the *stored* count is compared against `max_count` first — if it
already exceeds `max_count` the entry is deleted, otherwise the count is
incremented — and the item itself (truthy, "present") is returned. -/
def RetryCache.get (c : RetryCache) (a : String) : Option String × RetryCache :=
  match dictLookup c.cache a with
  | none => (none, c)
  | some count =>
    if c.max_count < count then
      (some a, { c with cache := dictErase c.cache a })
    else
      (some a, { c with cache := dictSet c.cache a (count + 1) })

/-- `RetryCache.put` (slave.py 74-78): if the dict holds exactly `max_size`
entries, `popitem()` is called (which removes the *most recently inserted*
entry), then `cache[item] = 0` resets a present key's count in place or
appends an absent key at the back. -/
def RetryCache.put (c : RetryCache) (a : String) : RetryCache :=
  let cache1 := if c.cache.length = c.max_size then c.cache.dropLast else c.cache
  let cache2 :=
    if (dictLookup cache1 a).isSome then dictSet cache1 a 0
    else cache1 ++ [(a, 0)]
  { c with cache := cache2 }

/-- `n` successive calls to `get` on the same item, keeping only the state. -/
def getN (c : RetryCache) (a : String) : Nat → RetryCache
  | 0 => c
  | n + 1 => getN (RetryCache.get c a).2 a n

/-! ### Dict lemmas -/

theorem dictLookup_dictSet_self (l : List (String × Nat)) (a : String) (v : Nat)
    (h : (dictLookup l a).isSome) : dictLookup (dictSet l a v) a = some v := by
  induction l with
  | nil => simp [dictLookup] at h
  | cons p rest ih =>
    by_cases hpa : p.1 = a
    · simp [dictLookup, dictSet, hpa]
    · simp [dictLookup, dictSet, hpa] at h ⊢
      exact ih h

theorem dictSet_length (l : List (String × Nat)) (a : String) (v : Nat) :
    (dictSet l a v).length = l.length := by
  simp [dictSet]

theorem dictLookup_dictErase (l : List (String × Nat)) (a : String) :
    dictLookup (dictErase l a) a = none := by
  induction l with
  | nil => rfl
  | cons p rest ih =>
    by_cases hpa : p.1 = a
    · simpa [dictErase, hpa] using ih
    · simpa [dictErase, dictLookup, hpa] using ih

theorem dictLookup_append_single (l : List (String × Nat)) (a : String) (v : Nat)
    (h : dictLookup l a = none) : dictLookup (l ++ [(a, v)]) a = some v := by
  induction l with
  | nil => simp [dictLookup]
  | cons p rest ih =>
    by_cases hpa : p.1 = a
    · simp [dictLookup, hpa] at h
    · simp [dictLookup, hpa] at h ⊢
      exact ih h

theorem dictLookup_isSome_of_mem (l : List (String × Nat)) (a : String)
    (h : a ∈ l.map Prod.fst) : (dictLookup l a).isSome := by
  induction l with
  | nil => simp at h
  | cons p rest ih =>
    by_cases hpa : p.1 = a
    · simp [dictLookup, hpa]
    · simp [dictLookup, hpa]
      rcases List.mem_map.mp h with ⟨q, hq, hqa⟩
      rcases List.mem_cons.mp hq with hq | hq
      · exact absurd (hq ▸ hqa) hpa
      · exact ih (List.mem_map.mpr ⟨q, hq, hqa⟩)

theorem dictLookup_put_self (c : RetryCache) (a : String) :
    dictLookup (RetryCache.put c a).cache a = some 0 := by
  show dictLookup
    (if (dictLookup (if c.cache.length = c.max_size then c.cache.dropLast else c.cache) a).isSome
     then dictSet (if c.cache.length = c.max_size then c.cache.dropLast else c.cache) a 0
     else (if c.cache.length = c.max_size then c.cache.dropLast else c.cache) ++ [(a, 0)]) a
    = some 0
  set cache1 := if c.cache.length = c.max_size then c.cache.dropLast else c.cache with hc1
  by_cases hs : (dictLookup cache1 a).isSome
  · simp only [hs, if_true]
    exact dictLookup_dictSet_self _ a 0 hs
  · simp only [hs, if_false]
    apply dictLookup_append_single
    cases h : dictLookup cache1 a with
    | none => rfl
    | some v => rw [h] at hs; simp at hs

theorem get_max_count (c : RetryCache) (a : String) :
    ((RetryCache.get c a).2).max_count = c.max_count := by
  unfold RetryCache.get
  cases dictLookup c.cache a with
  | none => rfl
  | some count =>
    by_cases h : c.max_count < count <;> simp [h]

theorem put_max_count (c : RetryCache) (a : String) :
    ((RetryCache.put c a).max_count) = c.max_count := rfl

/-- Counting up: from a stored count `k`, as long as successive `get`s stay at
or below `max_count` at observation time, each `get` increments the count. -/
theorem getN_counts (a : String) (n : Nat) :
    ∀ (c : RetryCache) (k : Nat), dictLookup c.cache a = some k →
      k + n ≤ c.max_count + 1 →
      dictLookup (getN c a n).cache a = some (k + n)
      ∧ (getN c a n).max_count = c.max_count := by
  induction n with
  | zero => intro c k hk _; simpa [getN] using hk
  | succ n ih =>
    intro c k hk hle
    have hkle : ¬ c.max_count < k := by omega
    have hstep : (RetryCache.get c a).2 =
        { c with cache := dictSet c.cache a (k + 1) } := by
      unfold RetryCache.get
      rw [hk]
      simp [hkle]
    have hlook : dictLookup ((RetryCache.get c a).2).cache a = some (k + 1) := by
      rw [hstep]
      exact dictLookup_dictSet_self _ a (k + 1)
        (by simp [Option.isSome_iff_exists]; exact ⟨k, hk⟩)
    have hmc : ((RetryCache.get c a).2).max_count = c.max_count := get_max_count c a
    have := ih ((RetryCache.get c a).2) (k + 1) hlook (by omega)
    simp only [getN]
    constructor
    · have := this.1
      rw [this]
      congr 1
      omega
    · rw [this.2, hmc]

/-! ### Claims about the RetryCache -/

/-- C1 (counterexample): with `MAX_COUNT = 10`, after inserting a fresh
retry-id and calling `get` on it `MAX_COUNT + 1 = 11` times, the entry is
*still present* (stored count 11) and the next `get` still reports present —
refuting "after at most MAX_COUNT + 1 gets, get reports the entry absent". -/
theorem retry_cache_eleven_gets_still_present :
    dictLookup (getN (RetryCache.put ⟨[], 100, 10⟩ "a") "a" 11).cache "a" = some 11
    ∧ (RetryCache.get (getN (RetryCache.put ⟨[], 100, 10⟩ "a") "a" 11) "a").1 = some "a" := by
  constructor <;> rfl

/-- C1 (amended): after a `put`, the first `max_count + 1` `get`s return
present and leave the count at `max_count + 1`; the `(max_count + 2)`-th `get`
— the first that *observes* a stored count above `max_count` — evicts the
entry while still returning present, and every subsequent `get` returns
absent.  So the entry reports absent after at most `max_count + 2` gets. -/
theorem retry_cache_progress_after_max_count (c : RetryCache) (a : String) :
    (RetryCache.get (getN (RetryCache.put c a) a (c.max_count + 1)) a).1 = some a
    ∧ dictLookup ((RetryCache.get (getN (RetryCache.put c a) a (c.max_count + 1)) a).2).cache a = none
    ∧ (RetryCache.get ((RetryCache.get (getN (RetryCache.put c a) a (c.max_count + 1)) a).2) a).1 = none := by
  have h0 : dictLookup (RetryCache.put c a).cache a = some 0 := dictLookup_put_self c a
  have hmc : (RetryCache.put c a).max_count = c.max_count := put_max_count c a
  have hN := getN_counts a (c.max_count + 1) (RetryCache.put c a) 0 h0 (by omega)
  set cN := getN (RetryCache.put c a) a (c.max_count + 1) with hcN
  have hlook : dictLookup cN.cache a = some (c.max_count + 1) := by
    simpa using hN.1
  have hmcN : cN.max_count = c.max_count := by rw [hN.2, hmc]
  have hover : cN.max_count < c.max_count + 1 := by omega
  have hget : RetryCache.get cN a = (some a, { cN with cache := dictErase cN.cache a }) := by
    unfold RetryCache.get
    rw [hlook]
    simp [hover]
  refine ⟨by rw [hget], ?_, ?_⟩
  · rw [hget]
    exact dictLookup_dictErase cN.cache a
  · rw [hget]
    unfold RetryCache.get
    rw [dictLookup_dictErase cN.cache a]

/-- C2 (failing input): a cache at capacity `max_size = 3` holding `a, b, c`
in insertion order; `put "d"` keeps the *oldest* entry `a` and evicts the
*newest* entry `c` (`OrderedDict.popitem()` pops LIFO), contradicting the
claimed FIFO eviction of the oldest-inserted entry (which would yield
`[b, c, d]`). -/
theorem retry_cache_put_full_evicts_newest :
    (RetryCache.put ⟨[("a", 0), ("b", 0), ("c", 0)], 3, 10⟩ "d").cache
      = [("a", 0), ("b", 0), ("d", 0)]
    ∧ (RetryCache.put ⟨[("a", 0), ("b", 0), ("c", 0)], 3, 10⟩ "d").cache
      ≠ [("b", 0), ("c", 0), ("d", 0)] := by
  constructor
  · rfl
  · decide

/-- C10: `put` on a retry-id that is already present does not grow the cache,
and resets that entry's touch count to 0. -/
theorem retry_cache_put_existing (c : RetryCache) (a : String)
    (h : a ∈ c.cache.map Prod.fst) :
    (RetryCache.put c a).cache.length ≤ c.cache.length
    ∧ dictLookup (RetryCache.put c a).cache a = some 0 := by
  refine ⟨?_, dictLookup_put_self c a⟩
  have hne : c.cache ≠ [] := by
    intro hnil
    rw [hnil] at h
    simp at h
  have hpos : 1 ≤ c.cache.length := by
    cases hc : c.cache with
    | nil => exact absurd hc hne
    | cons p rest => simp [hc]
  show (if (dictLookup (if c.cache.length = c.max_size then c.cache.dropLast else c.cache) a).isSome
        then dictSet (if c.cache.length = c.max_size then c.cache.dropLast else c.cache) a 0
        else (if c.cache.length = c.max_size then c.cache.dropLast else c.cache) ++ [(a, 0)]).length
      ≤ c.cache.length
  by_cases hfull : c.cache.length = c.max_size
  · simp only [hfull, if_true]
    by_cases hs : (dictLookup c.cache.dropLast a).isSome
    · simp only [hs, if_true]
      rw [dictSet_length, List.length_dropLast]
      omega
    · have hs' : (dictLookup c.cache.dropLast a).isSome = false := by
        simpa using hs
      simp only [hs', Bool.false_eq_true, if_false, List.length_append,
        List.length_dropLast]
      simp only [List.length_cons, List.length_nil]
      omega
  · simp only [hfull, if_false]
    have hs : (dictLookup c.cache a).isSome := dictLookup_isSome_of_mem c.cache a h
    simp only [hs, if_true]
    rw [dictSet_length]

/-- C10 witness: a concrete cache where `"a"` is present with count 3;
`put "a"` keeps the size and resets the count. -/
theorem retry_cache_put_existing_witness :
    (RetryCache.put ⟨[("a", 3), ("b", 1)], 100, 10⟩ "a").cache.length ≤ 2
    ∧ dictLookup (RetryCache.put ⟨[("a", 3), ("b", 1)], 100, 10⟩ "a").cache "a" = some 0 :=
  retry_cache_put_existing ⟨[("a", 3), ("b", 1)], 100, 10⟩ "a" (by decide)

/-! ## Master HTTP endpoints (`cancel_job` / `submit_retry_task`,
slave.py 369-389)

The HTTP round trip (`urllib.request.urlopen(...).read()`) is abstracted as an
oracle `http : Except String String`: `ok body` is a successful read of the
response body, `error e` is a raised exception (connection error, HTTP error
status, ...).  Parsing the JSON body and extracting its `status` field
(`json.loads` + `result.get('status')`) is the oracle
`parse : String → Except String (Option String)`: `error` models a raised
parse exception, `ok none` a body without a `status` field.

`cancel_job` wraps the whole interaction in `try/except Exception`, so it
always returns normally, with at most a line written to stderr.
`submit_retry_task` has *no* try/except: a raised exception propagates to its
caller (`run_task` line 307, itself called from `run` line 419 outside any
try block). -/

/-- `Slave.cancel_job` (slave.py 369-378): returns the list of stderr writes;
the `Except` layer is the function's own exception behaviour — always `ok`
because of the enclosing `try/except Exception`. -/
def cancel_job (job_id : String) (http : Except String String)
    (parse : String → Except String (Option String)) : Except String (List String) :=
  Except.ok
    (match http with
     | Except.error e => ["Unable to cancel job " ++ job_id ++ ": " ++ e ++ "\n"]
     | Except.ok body =>
       match parse body with
       | Except.error e => ["Unable to cancel job " ++ job_id ++ ": " ++ e ++ "\n"]
       | Except.ok status =>
         if status = some "SUCCESS" then []
         else ["Unable to cancel job " ++ job_id ++ ": " ++ body])

/-- `Slave.submit_retry_task` (slave.py 380-389): no try/except — an oracle
`error` (raised by `urlopen` or `json.loads`) propagates as `Except.error`.
On a normal response it writes stderr only for a non-SUCCESS status and then
inserts the retry-id into the anti-affinity cache. -/
def submit_retry_task (cache : RetryCache) (retry_id : String)
    (http : Except String String)
    (parse : String → Except String (Option String)) :
    Except String (List String × RetryCache) :=
  match http with
  | Except.error e => Except.error e
  | Except.ok body =>
    match parse body with
    | Except.error e => Except.error e
    | Except.ok status =>
      let errs := if status = some "SUCCESS" then []
                  else ["Unable to submit retry task: " ++ body ++ "\n"]
      Except.ok (errs, RetryCache.put cache retry_id)

/-- C3 (counterexample): a raised connection error while POSTing to the
`retry_task` endpoint is *not* recovered by `submit_retry_task` — it
propagates out of the task-processing path, refuting "an error raised while
contacting the master HTTP endpoint (retry_task or cancel_job) is recovered
locally". -/
theorem submit_retry_task_error_propagates :
    submit_retry_task ⟨[], 100, 10⟩ "r1" (Except.error "Connection refused")
        (fun _ => Except.ok (some "SUCCESS"))
      = Except.error "Connection refused" := rfl

/-- C3 (amended): errors contacting `cancel_job` are always recovered locally
(the call returns normally, reporting at most to stderr), while a raised
error contacting `retry_task` propagates unhandled out of
`submit_retry_task`. -/
theorem master_endpoint_error_handling :
    (∀ (job_id : String) (http : Except String String)
       (parse : String → Except String (Option String)),
       (cancel_job job_id http parse).isOk = true)
    ∧ (∀ (cache : RetryCache) (retry_id e : String)
         (parse : String → Except String (Option String)),
         submit_retry_task cache retry_id (Except.error e) parse
           = Except.error e) :=
  ⟨fun _ _ _ => rfl, fun _ _ _ _ => rfl⟩

/-! ## Supervised runner (`run_command_and_touch_task`, slave.py 310-367)

The `while True` loop wakes from `select.select(pipes, [], pipes, 2)` once per
iteration.  Each wake is modelled as a `WakeEvent`: the bytes readable on each
pipe (`none` = pipe not in `rlist`), whether `xlist` was non-empty, whether
`p.poll()` reported an exit, and the wall-clock time `now` at that wake.
Captured stdout/stderr are kept as lists of appended chunks (their
concatenation is the Python string).  Signals sent to the child
(`p.terminate()` / `p.kill()`) are accumulated in order. -/

inductive Sig where
  | term
  | kill
deriving DecidableEq

structure WakeEvent where
  stdout_data : Option String
  stderr_data : Option String
  xlist : Bool
  exited : Bool
  now : Nat
deriving DecidableEq

structure RunnerState where
  stdout : List String
  stderr : List String
  last_touch : Nat
  signals : List Sig
  touches : Nat
deriving DecidableEq

/-- The diagnostic appended to captured stderr on graceful termination
(slave.py 352). -/
def killMsg (timeout : Nat) : String :=
  "\n------\nKilling task after " ++ toString timeout ++ " seconds"

/-- Reads from ready pipes (slave.py 341-346): append any bytes read to the
captured output chunk lists. -/
def drain (s : RunnerState) (ev : WakeEvent) : RunnerState :=
  let s1 := match ev.stdout_data with
            | some x => { s with stdout := s.stdout ++ [x] }
            | none => s
  match ev.stderr_data with
  | some x => { s1 with stderr := s1.stderr ++ [x] }
  | none => s1

/-- Graceful-termination check (slave.py 350-353): past `kill_term_time`
append the diagnostic to stderr and send SIGTERM. -/
def escalateTerm (timeout kill_term_time now : Nat) (s : RunnerState) : RunnerState :=
  if 0 < timeout ∧ kill_term_time < now then
    { s with stderr := s.stderr ++ [killMsg timeout],
             signals := s.signals ++ [Sig.term] }
  else s

/-- Forced-kill check (slave.py 354-356): past `kill_kill_time` send SIGKILL. -/
def escalateKill (timeout kill_kill_time now : Nat) (s : RunnerState) : RunnerState :=
  if 0 < timeout ∧ kill_kill_time < now then
    { s with signals := s.signals ++ [Sig.kill] }
  else s

/-- Timeout escalation (slave.py 350-356): both checks, in source order. -/
def escalate (timeout kill_term_time kill_kill_time now : Nat)
    (s : RunnerState) : RunnerState :=
  escalateKill timeout kill_kill_time now (escalateTerm timeout kill_term_time now s)

/-- Queue heartbeat (slave.py 358-365): touch the broker element when more
than 10 seconds have passed since the last touch. -/
def touchIfDue (now : Nat) (s : RunnerState) : RunnerState :=
  if 10 < now - s.last_touch then
    { s with touches := s.touches + 1, last_touch := now }
  else s

/-- One iteration of the runner loop body (slave.py 339-365): drain ready
pipes, break on `xlist` or child exit, otherwise escalate past the two
deadlines and heartbeat.  Returns the new state and whether the loop broke. -/
def runnerStep (timeout kill_term_time kill_kill_time : Nat)
    (s : RunnerState) (ev : WakeEvent) : RunnerState × Bool :=
  let s2 := drain s ev
  if ev.xlist || ev.exited then (s2, true)
  else (touchIfDue ev.now (escalate timeout kill_term_time kill_kill_time ev.now s2), false)

def runnerLoop (timeout ktt kkt : Nat) : RunnerState → List WakeEvent → RunnerState
  | s, [] => s
  | s, ev :: rest =>
    match runnerStep timeout ktt kkt s ev with
    | (s', true) => s'
    | (s', false) => runnerLoop timeout ktt kkt s' rest

/-- `Slave.run_command_and_touch_task` over a finite trace of select wakes:
`last_touch` starts at `start`, `kill_term_time = start + timeout`,
`kill_kill_time = kill_term_time + 5` (slave.py 336-338). -/
def run_command_and_touch_task (timeout start : Nat) (events : List WakeEvent) :
    RunnerState :=
  runnerLoop timeout (start + timeout) (start + timeout + 5)
    ⟨[], [], start, [], 0⟩ events

/-! ### Runner lemmas -/

theorem drain_signals (s : RunnerState) (ev : WakeEvent) :
    (drain s ev).signals = s.signals := by
  unfold drain
  cases ev.stdout_data <;> cases ev.stderr_data <;> rfl

theorem drain_stderr_mono (s : RunnerState) (ev : WakeEvent) :
    s.stderr ⊆ (drain s ev).stderr := by
  unfold drain
  cases ev.stdout_data <;> cases ev.stderr_data <;>
    simp [List.subset_append_left]

theorem touchIfDue_signals (now : Nat) (s : RunnerState) :
    (touchIfDue now s).signals = s.signals := by
  unfold touchIfDue
  by_cases h : 10 < now - s.last_touch <;> simp [h]

theorem touchIfDue_stderr (now : Nat) (s : RunnerState) :
    (touchIfDue now s).stderr = s.stderr := by
  unfold touchIfDue
  by_cases h : 10 < now - s.last_touch <;> simp [h]

theorem escalateTerm_signals_mono (timeout ktt now : Nat) (s : RunnerState) :
    s.signals ⊆ (escalateTerm timeout ktt now s).signals := by
  unfold escalateTerm
  by_cases h : 0 < timeout ∧ ktt < now
  · rw [if_pos h]
    exact List.subset_append_left _ _
  · rw [if_neg h]
    exact fun _ hm => hm

theorem escalateTerm_stderr_mono (timeout ktt now : Nat) (s : RunnerState) :
    s.stderr ⊆ (escalateTerm timeout ktt now s).stderr := by
  unfold escalateTerm
  by_cases h : 0 < timeout ∧ ktt < now
  · rw [if_pos h]
    exact List.subset_append_left _ _
  · rw [if_neg h]
    exact fun _ hm => hm

theorem escalateKill_signals_mono (timeout kkt now : Nat) (s : RunnerState) :
    s.signals ⊆ (escalateKill timeout kkt now s).signals := by
  unfold escalateKill
  by_cases h : 0 < timeout ∧ kkt < now
  · rw [if_pos h]
    exact List.subset_append_left _ _
  · rw [if_neg h]
    exact fun _ hm => hm

theorem escalateKill_stderr (timeout kkt now : Nat) (s : RunnerState) :
    (escalateKill timeout kkt now s).stderr = s.stderr := by
  unfold escalateKill
  by_cases h : 0 < timeout ∧ kkt < now
  · rw [if_pos h]
  · rw [if_neg h]

theorem escalate_signals_timeout_zero (ktt kkt now : Nat) (s : RunnerState) :
    (escalate 0 ktt kkt now s).signals = s.signals := by
  simp [escalate, escalateKill, escalateTerm]

theorem escalate_signals_mono (timeout ktt kkt now : Nat) (s : RunnerState) :
    s.signals ⊆ (escalate timeout ktt kkt now s).signals :=
  fun _ hx =>
    escalateKill_signals_mono timeout kkt now _
      (escalateTerm_signals_mono timeout ktt now s hx)

theorem escalate_stderr_mono (timeout ktt kkt now : Nat) (s : RunnerState) :
    s.stderr ⊆ (escalate timeout ktt kkt now s).stderr := by
  intro x hx
  unfold escalate
  rw [escalateKill_stderr]
  exact escalateTerm_stderr_mono timeout ktt now s hx

theorem escalate_term (timeout ktt kkt now : Nat) (s : RunnerState)
    (htpos : 0 < timeout) (hnow : ktt < now) :
    Sig.term ∈ (escalate timeout ktt kkt now s).signals
    ∧ killMsg timeout ∈ (escalate timeout ktt kkt now s).stderr := by
  have hterm : escalateTerm timeout ktt now s =
      { s with stderr := s.stderr ++ [killMsg timeout],
               signals := s.signals ++ [Sig.term] } := by
    unfold escalateTerm
    rw [if_pos ⟨htpos, hnow⟩]
  constructor
  · apply escalateKill_signals_mono
    rw [hterm]
    simp
  · unfold escalate
    rw [escalateKill_stderr, hterm]
    simp

theorem escalate_kill (timeout ktt kkt now : Nat) (s : RunnerState)
    (htpos : 0 < timeout) (hnow : kkt < now) :
    Sig.kill ∈ (escalate timeout ktt kkt now s).signals := by
  unfold escalate escalateKill
  rw [if_pos ⟨htpos, hnow⟩]
  simp

theorem runnerStep_signals_timeout_zero (ktt kkt : Nat) (s : RunnerState)
    (ev : WakeEvent) : ((runnerStep 0 ktt kkt s ev).1).signals = s.signals := by
  unfold runnerStep
  by_cases hx : ev.xlist || ev.exited
  · simp [hx, drain_signals]
  · simp [hx, touchIfDue_signals, escalate_signals_timeout_zero, drain_signals]

theorem runnerLoop_signals_timeout_zero (ktt kkt : Nat) :
    ∀ (events : List WakeEvent) (s : RunnerState),
      (runnerLoop 0 ktt kkt s events).signals = s.signals := by
  intro events
  induction events with
  | nil => intro s; rfl
  | cons ev rest ih =>
    intro s
    unfold runnerLoop
    cases hstep : runnerStep 0 ktt kkt s ev with
    | mk s' broke =>
      have hsig : s'.signals = s.signals := by
        have := runnerStep_signals_timeout_zero ktt kkt s ev
        rw [hstep] at this
        exact this
      cases broke with
      | true => simpa using hsig
      | false => simpa [ih s'] using hsig

theorem runnerStep_signals_mono (timeout ktt kkt : Nat) (s : RunnerState)
    (ev : WakeEvent) : s.signals ⊆ ((runnerStep timeout ktt kkt s ev).1).signals := by
  unfold runnerStep
  by_cases hx : ev.xlist || ev.exited
  · simp [hx, drain_signals]
  · simp only [hx, Bool.false_eq_true, if_false, touchIfDue_signals]
    rw [← drain_signals s ev]
    exact escalate_signals_mono timeout ktt kkt ev.now (drain s ev)

theorem runnerStep_stderr_mono (timeout ktt kkt : Nat) (s : RunnerState)
    (ev : WakeEvent) : s.stderr ⊆ ((runnerStep timeout ktt kkt s ev).1).stderr := by
  unfold runnerStep
  by_cases hx : ev.xlist || ev.exited
  · simp only [hx, if_true]
    exact drain_stderr_mono s ev
  · simp only [hx, Bool.false_eq_true, if_false, touchIfDue_stderr]
    exact fun x h =>
      escalate_stderr_mono timeout ktt kkt ev.now (drain s ev) (drain_stderr_mono s ev h)

theorem runnerLoop_signals_mono (timeout ktt kkt : Nat) :
    ∀ (events : List WakeEvent) (s : RunnerState),
      s.signals ⊆ (runnerLoop timeout ktt kkt s events).signals := by
  intro events
  induction events with
  | nil => intro s; exact fun x hx => hx
  | cons ev rest ih =>
    intro s
    unfold runnerLoop
    cases hstep : runnerStep timeout ktt kkt s ev with
    | mk s' broke =>
      have hsub : s.signals ⊆ s'.signals := by
        have := runnerStep_signals_mono timeout ktt kkt s ev
        rw [hstep] at this
        exact this
      cases broke with
      | true => simpa using hsub
      | false =>
        simp only []
        exact fun x hx => ih s' (hsub hx)

theorem runnerLoop_stderr_mono (timeout ktt kkt : Nat) :
    ∀ (events : List WakeEvent) (s : RunnerState),
      s.stderr ⊆ (runnerLoop timeout ktt kkt s events).stderr := by
  intro events
  induction events with
  | nil => intro s; exact fun x hx => hx
  | cons ev rest ih =>
    intro s
    unfold runnerLoop
    cases hstep : runnerStep timeout ktt kkt s ev with
    | mk s' broke =>
      have hsub : s.stderr ⊆ s'.stderr := by
        have := runnerStep_stderr_mono timeout ktt kkt s ev
        rw [hstep] at this
        exact this
      cases broke with
      | true => simpa using hsub
      | false =>
        simp only []
        exact fun x hx => ih s' (hsub hx)

/-- A wake past `kill_term_time` with the child still alive appends the
graceful-termination signal and the stderr diagnostic, and does not break. -/
theorem runnerStep_term_fires (timeout ktt kkt : Nat) (s : RunnerState)
    (ev : WakeEvent) (hx : ev.xlist = false) (he : ev.exited = false)
    (htpos : 0 < timeout) (hnow : ktt < ev.now) :
    (runnerStep timeout ktt kkt s ev).2 = false
    ∧ Sig.term ∈ ((runnerStep timeout ktt kkt s ev).1).signals
    ∧ killMsg timeout ∈ ((runnerStep timeout ktt kkt s ev).1).stderr := by
  have hbr : runnerStep timeout ktt kkt s ev =
      (touchIfDue ev.now (escalate timeout ktt kkt ev.now (drain s ev)), false) := by
    unfold runnerStep
    rw [hx, he]
    rfl
  rw [hbr]
  refine ⟨rfl, ?_, ?_⟩
  · show Sig.term ∈ (touchIfDue ev.now _).signals
    rw [touchIfDue_signals]
    exact (escalate_term timeout ktt kkt ev.now (drain s ev) htpos hnow).1
  · show killMsg timeout ∈ (touchIfDue ev.now _).stderr
    rw [touchIfDue_stderr]
    exact (escalate_term timeout ktt kkt ev.now (drain s ev) htpos hnow).2

/-- A wake past `kill_kill_time` with the child still alive appends the
forced-kill signal and does not break. -/
theorem runnerStep_kill_fires (timeout ktt kkt : Nat) (s : RunnerState)
    (ev : WakeEvent) (hx : ev.xlist = false) (he : ev.exited = false)
    (htpos : 0 < timeout) (hnow : kkt < ev.now) :
    (runnerStep timeout ktt kkt s ev).2 = false
    ∧ Sig.kill ∈ ((runnerStep timeout ktt kkt s ev).1).signals := by
  have hbr : runnerStep timeout ktt kkt s ev =
      (touchIfDue ev.now (escalate timeout ktt kkt ev.now (drain s ev)), false) := by
    unfold runnerStep
    rw [hx, he]
    rfl
  rw [hbr]
  refine ⟨rfl, ?_⟩
  show Sig.kill ∈ (touchIfDue ev.now _).signals
  rw [touchIfDue_signals]
  exact escalate_kill timeout ktt kkt ev.now (drain s ev) htpos hnow

theorem runnerLoop_term_reaches (timeout ktt kkt : Nat) :
    ∀ (events : List WakeEvent) (s : RunnerState),
      (∀ ev ∈ events, ev.xlist = false ∧ ev.exited = false) →
      0 < timeout → (∃ ev ∈ events, ktt < ev.now) →
      Sig.term ∈ (runnerLoop timeout ktt kkt s events).signals
      ∧ killMsg timeout ∈ (runnerLoop timeout ktt kkt s events).stderr := by
  intro events
  induction events with
  | nil =>
    intro s _ _ hex
    rcases hex with ⟨ev, hev, _⟩
    simp at hev
  | cons ev rest ih =>
    intro s halive htpos hex
    have hhd := halive ev (List.mem_cons_self ev rest)
    unfold runnerLoop
    cases hstep : runnerStep timeout ktt kkt s ev with
    | mk s' broke =>
      by_cases hnow : ktt < ev.now
      · have hfires := runnerStep_term_fires timeout ktt kkt s ev hhd.1 hhd.2 htpos hnow
        rw [hstep] at hfires
        have hbroke : broke = false := hfires.1
        subst hbroke
        simp only []
        exact ⟨runnerLoop_signals_mono timeout ktt kkt rest s' hfires.2.1,
               runnerLoop_stderr_mono timeout ktt kkt rest s' hfires.2.2⟩
      · have hbroke : broke = false := by
          have : (runnerStep timeout ktt kkt s ev).2 = false := by
            unfold runnerStep
            simp [hhd.1, hhd.2]
          rw [hstep] at this
          exact this
        subst hbroke
        simp only []
        apply ih s'
        · intro e he
          exact halive e (List.mem_cons_of_mem ev he)
        · exact htpos
        · rcases hex with ⟨e, he, hlt⟩
          rcases List.mem_cons.mp he with rfl | he
          · exact absurd hlt hnow
          · exact ⟨e, he, hlt⟩

theorem runnerLoop_kill_reaches (timeout ktt kkt : Nat) :
    ∀ (events : List WakeEvent) (s : RunnerState),
      (∀ ev ∈ events, ev.xlist = false ∧ ev.exited = false) →
      0 < timeout → (∃ ev ∈ events, kkt < ev.now) →
      Sig.kill ∈ (runnerLoop timeout ktt kkt s events).signals := by
  intro events
  induction events with
  | nil =>
    intro s _ _ hex
    rcases hex with ⟨ev, hev, _⟩
    simp at hev
  | cons ev rest ih =>
    intro s halive htpos hex
    have hhd := halive ev (List.mem_cons_self ev rest)
    unfold runnerLoop
    cases hstep : runnerStep timeout ktt kkt s ev with
    | mk s' broke =>
      by_cases hnow : kkt < ev.now
      · have hfires := runnerStep_kill_fires timeout ktt kkt s ev hhd.1 hhd.2 htpos hnow
        rw [hstep] at hfires
        have hbroke : broke = false := hfires.1
        subst hbroke
        simp only []
        exact runnerLoop_signals_mono timeout ktt kkt rest s' hfires.2
      · have hbroke : broke = false := by
          have : (runnerStep timeout ktt kkt s ev).2 = false := by
            unfold runnerStep
            simp [hhd.1, hhd.2]
          rw [hstep] at this
          exact this
        subst hbroke
        simp only []
        apply ih s'
        · intro e he
          exact halive e (List.mem_cons_of_mem ev he)
        · exact htpos
        · rcases hex with ⟨e, he, hlt⟩
          rcases List.mem_cons.mp he with rfl | he
          · exact absurd hlt hnow
          · exact ⟨e, he, hlt⟩

/-- C4: over any finite trace of select wakes, (i) with `timeout = 0` the
runner never sends the child a termination or kill signal; (ii) with
`timeout > 0`, if the child stays alive and some wake occurs after
`start + timeout`, a graceful termination is sent and the diagnostic line is
appended to the captured stderr; (iii) if additionally some wake occurs after
`start + timeout + 5` with the child still alive, a forced kill is sent. -/
theorem run_command_timeout_policy (timeout start : Nat) (events : List WakeEvent) :
    (timeout = 0 → (run_command_and_touch_task timeout start events).signals = [])
    ∧ ((∀ ev ∈ events, ev.xlist = false ∧ ev.exited = false) → 0 < timeout →
        ((∃ ev ∈ events, start + timeout < ev.now) →
          Sig.term ∈ (run_command_and_touch_task timeout start events).signals
          ∧ killMsg timeout ∈ (run_command_and_touch_task timeout start events).stderr)
        ∧ ((∃ ev ∈ events, start + timeout + 5 < ev.now) →
          Sig.kill ∈ (run_command_and_touch_task timeout start events).signals)) := by
  constructor
  · intro h0
    subst h0
    exact runnerLoop_signals_timeout_zero _ _ events _
  · intro halive htpos
    constructor
    · intro hex
      exact runnerLoop_term_reaches timeout (start + timeout) (start + timeout + 5)
        events _ halive htpos hex
    · intro hex
      exact runnerLoop_kill_reaches timeout (start + timeout) (start + timeout + 5)
        events _ halive htpos hex

/-- C4 witness: a child that sleeps past both deadlines (timeout 2, a wake at
t = 8 > 2 and > 7) receives both the graceful termination (with the stderr
diagnostic) and the forced kill; with timeout 0 the same trace produces no
signal at all. -/
theorem run_command_timeout_policy_witness :
    (run_command_and_touch_task 0 0 [⟨none, none, false, false, 8⟩]).signals = []
    ∧ Sig.term ∈ (run_command_and_touch_task 2 0 [⟨none, none, false, false, 8⟩]).signals
    ∧ killMsg 2 ∈ (run_command_and_touch_task 2 0 [⟨none, none, false, false, 8⟩]).stderr
    ∧ Sig.kill ∈ (run_command_and_touch_task 2 0 [⟨none, none, false, false, 8⟩]).signals := by
  refine ⟨(run_command_timeout_policy 0 0 [⟨none, none, false, false, 8⟩]).1 rfl, ?_, ?_, ?_⟩
  · exact (((run_command_timeout_policy 2 0 [⟨none, none, false, false, 8⟩]).2
      (by decide) (by decide)).1 ⟨⟨none, none, false, false, 8⟩, by decide, by decide⟩).1
  · exact (((run_command_timeout_policy 2 0 [⟨none, none, false, false, 8⟩]).2
      (by decide) (by decide)).1 ⟨⟨none, none, false, false, 8⟩, by decide, by decide⟩).2
  · exact ((run_command_timeout_policy 2 0 [⟨none, none, false, false, 8⟩]).2
      (by decide) (by decide)).2 ⟨⟨none, none, false, false, 8⟩, by decide, by decide⟩

/-! ## Payload download with retries
(`download_task_files_with_retries`, slave.py 207-220)

One call to `download_task_files` either returns the parsed manifest or
raises; it is abstracted as an oracle `outs : Nat → Except String Manifest`
indexed by the attempt number.  The retry loop
`for rem_attempts in reversed(range(NUM_DOWNLOAD_ATTEMPTS_PER_TASK))`
iterates `rem_attempts = 2, 1, 0`; on failure with `rem_attempts = 0` it
re-raises, otherwise it deletes and recreates the work directory
(`shutil.rmtree` + `os.makedirs`) and sleeps 5 seconds before retrying. -/

structure Manifest where
  command : List String
  relative_cwd : String
deriving DecidableEq

inductive FxEvent where
  | recreate_dir
  | sleep : Nat → FxEvent
deriving DecidableEq

structure DownloadResult where
  attempts : Nat
  events : List FxEvent
  result : Except String Manifest

def NUM_DOWNLOAD_ATTEMPTS_PER_TASK : Nat := 3

def download_retry_go (outs : Nat → Except String Manifest) :
    Nat → List Nat → DownloadResult
  | _, [] => ⟨0, [], Except.error "empty attempt list"⟩
  | idx, rem :: rest =>
    match outs idx with
    | Except.ok m => ⟨1, [], Except.ok m⟩
    | Except.error e =>
      if rem = 0 then ⟨1, [], Except.error e⟩
      else
        let r := download_retry_go outs (idx + 1) rest
        ⟨r.attempts + 1, FxEvent.recreate_dir :: FxEvent.sleep 5 :: r.events, r.result⟩

/-- `Slave.download_task_files_with_retries` (slave.py 207-220). -/
def download_task_files_with_retries (outs : Nat → Except String Manifest) :
    DownloadResult :=
  download_retry_go outs 0 (List.range NUM_DOWNLOAD_ATTEMPTS_PER_TASK).reverse

theorem download_retry_go_attempts_le (outs : Nat → Except String Manifest) :
    ∀ (rems : List Nat) (idx : Nat),
      (download_retry_go outs idx rems).attempts ≤ rems.length := by
  intro rems
  induction rems with
  | nil => intro idx; simp [download_retry_go]
  | cons rem rest ih =>
    intro idx
    unfold download_retry_go
    cases outs idx with
    | ok m => simp
    | error e =>
      by_cases h0 : rem = 0
      · simp [h0]
      · simp only [h0, if_false]
        have := ih (idx + 1)
        simp only [List.length_cons]
        omega

/-! ## Task execution (`run_task`, slave.py 222-307)

`run_task` is embedded with its external collaborators as oracles:
`mark_running_ok` is `results_store.mark_task_running`, `outs` drives the
download attempts, `child = (rc, stdout, stderr)` is the outcome of
`run_command_and_touch_task` on the task command, `archive` the outcome of
`make_archive`, `num_failed` the value of
`results_store.count_num_failed_tasks`.  The observable outcome is what gets
reported (`mark_task_finished` arguments) and which post-failure actions
fire.  Stdout/stderr are chunk lists as in the runner model. -/

structure TaskSpec where
  timeout : Nat
  docker_image : Option String
  attempt : Nat
  max_retries : Nat
  job_id : String
  retry_id : String
deriving DecidableEq

/-- The arguments of `results_store.mark_task_finished` (slave.py 285-290),
minus the task itself and the wall-clock duration. -/
structure Finished where
  result_code : Int
  stdout : Option (List String)
  stderr : Option (List String)
  has_archive : Bool
deriving DecidableEq

structure RunTaskOutcome where
  ran_child : Bool
  finished : Option Finished
  canceled_job : Bool
  submitted_retry : Bool
deriving DecidableEq

/-- `Slave.run_task` (slave.py 222-307).  Returns the observable outcome and
the retry cache after the call.  `finished = none` models the early `return`
when `mark_task_running` reports the task canceled (no report, no policy). -/
def run_task (task : TaskSpec) (mark_running_ok : Bool)
    (outs : Nat → Except String Manifest)
    (child : Int × List String × List String)
    (archive : Bool) (num_failed : Nat) (cache : RetryCache) :
    RunTaskOutcome × RetryCache :=
  if mark_running_ok = false then
    (⟨false, none, false, false⟩, cache)
  else
    let dl := download_task_files_with_retries outs
    let er : Finished × Bool :=
      match dl.result with
      | Except.error e => (⟨-2, none, some [e], false⟩, false)
      | Except.ok _ =>
        let rc := child.1
        if rc = 0 then (⟨rc, none, none, archive⟩, true)
        else (⟨rc, some child.2.1, some child.2.2, archive⟩, true)
    let fin := er.1
    if fin.result_code ≠ 0 then
      if 100 < num_failed then
        (⟨er.2, some fin, true, false⟩, cache)
      else if task.attempt < task.max_retries then
        (⟨er.2, some fin, false, true⟩, RetryCache.put cache task.retry_id)
      else
        (⟨er.2, some fin, false, false⟩, cache)
    else
      (⟨er.2, some fin, false, false⟩, cache)

/-- C5: every task makes at most 3 download attempts; when all 3 fail, the
work directory is purged and recreated and the worker sleeps 5 s between
attempts, and the task is still reported finished with `result_code = -2` and
a stderr carrying the error message, the child never having been run. -/
theorem download_retries_and_failure_report
    (outs : Nat → Except String Manifest) (e0 e1 e2 : String)
    (h0 : outs 0 = Except.error e0) (h1 : outs 1 = Except.error e1)
    (h2 : outs 2 = Except.error e2) :
    (∀ f : Nat → Except String Manifest,
      (download_task_files_with_retries f).attempts ≤ 3)
    ∧ (download_task_files_with_retries outs).attempts = 3
    ∧ (download_task_files_with_retries outs).events
        = [FxEvent.recreate_dir, FxEvent.sleep 5,
           FxEvent.recreate_dir, FxEvent.sleep 5]
    ∧ (download_task_files_with_retries outs).result = Except.error e2
    ∧ ∀ (task : TaskSpec) (child : Int × List String × List String)
        (archive : Bool) (num_failed : Nat) (cache : RetryCache),
        (run_task task true outs child archive num_failed cache).1.ran_child = false
        ∧ ∃ f, (run_task task true outs child archive num_failed cache).1.finished = some f
            ∧ f.result_code = -2 ∧ f.stderr = some [e2] := by
  have hrange : (List.range NUM_DOWNLOAD_ATTEMPTS_PER_TASK).reverse = [2, 1, 0] := by
    decide
  have hdl : download_task_files_with_retries outs
      = ⟨3, [FxEvent.recreate_dir, FxEvent.sleep 5,
             FxEvent.recreate_dir, FxEvent.sleep 5], Except.error e2⟩ := by
    unfold download_task_files_with_retries
    rw [hrange]
    unfold download_retry_go
    rw [h0]
    simp only [if_neg (by omega : ¬ (2 : Nat) = 0)]
    unfold download_retry_go
    rw [h1]
    simp only [if_neg (by omega : ¬ (1 : Nat) = 0)]
    unfold download_retry_go
    rw [h2]
    simp
  refine ⟨?_, by rw [hdl], by rw [hdl], by rw [hdl], ?_⟩
  · intro f
    have := download_retry_go_attempts_le f (List.range NUM_DOWNLOAD_ATTEMPTS_PER_TASK).reverse 0
    simpa [NUM_DOWNLOAD_ATTEMPTS_PER_TASK] using this
  · intro task child archive num_failed cache
    unfold run_task
    rw [hdl]
    simp only [Bool.true_eq_false, if_false]
    refine ⟨?_, ⟨-2, none, some [e2], false⟩, ?_, rfl, rfl⟩
    · split_ifs <;> rfl
    · split_ifs <;> rfl

/-- C5 witness: a download oracle that always fails. -/
theorem download_retries_and_failure_report_witness :
    (download_task_files_with_retries (fun _ => Except.error "boom")).attempts = 3
    ∧ (run_task ⟨600, none, 0, 0, "j", "r"⟩ true (fun _ => Except.error "boom")
        (0, [], []) false 0 ⟨[], 100, 10⟩).1.ran_child = false :=
  ⟨(download_retries_and_failure_report (fun _ => Except.error "boom")
      "boom" "boom" "boom" rfl rfl rfl).2.1,
   ((download_retries_and_failure_report (fun _ => Except.error "boom")
      "boom" "boom" "boom" rfl rfl rfl).2.2.2.2
      ⟨600, none, 0, 0, "j", "r"⟩ (0, [], []) false 0 ⟨[], 100, 10⟩).1⟩

/-- C6: when the download succeeded and the child exited non-zero
(slave.py 299-307): if the job's failed count exceeds 100, the job is
canceled and no retry is submitted; otherwise, if `attempt < max_retries`,
a retry is submitted and the retry-id is inserted (count 0) into the
anti-affinity cache; with `max_retries = 0` a retry is never submitted. -/
theorem run_task_failure_policy (task : TaskSpec)
    (outs : Nat → Except String Manifest) (child : Int × List String × List String)
    (archive : Bool) (num_failed : Nat) (cache : RetryCache) (m : Manifest)
    (hdl : (download_task_files_with_retries outs).result = Except.ok m)
    (hrc : child.1 ≠ 0) :
    (100 < num_failed →
       (run_task task true outs child archive num_failed cache).1.canceled_job = true
       ∧ (run_task task true outs child archive num_failed cache).1.submitted_retry = false)
    ∧ (num_failed ≤ 100 → task.attempt < task.max_retries →
       (run_task task true outs child archive num_failed cache).1.submitted_retry = true
       ∧ dictLookup ((run_task task true outs child archive num_failed cache).2).cache
           task.retry_id = some 0)
    ∧ (task.max_retries = 0 →
       (run_task task true outs child archive num_failed cache).1.submitted_retry = false) := by
  have hstep : run_task task true outs child archive num_failed cache =
      (if 100 < num_failed then
        (⟨true, some ⟨child.1, some child.2.1, some child.2.2, archive⟩, true, false⟩, cache)
      else if task.attempt < task.max_retries then
        (⟨true, some ⟨child.1, some child.2.1, some child.2.2, archive⟩, false, true⟩,
          RetryCache.put cache task.retry_id)
      else
        (⟨true, some ⟨child.1, some child.2.1, some child.2.2, archive⟩, false, false⟩, cache)) := by
    simp only [run_task, Bool.true_eq_false, if_false]
    rw [hdl]
    simp [hrc]
  refine ⟨?_, ?_, ?_⟩
  · intro hnf
    rw [hstep, if_pos hnf]
    exact ⟨rfl, rfl⟩
  · intro hnf hatt
    rw [hstep, if_neg (by omega : ¬ 100 < num_failed), if_pos hatt]
    exact ⟨rfl, dictLookup_put_self cache task.retry_id⟩
  · intro hmr
    by_cases hnf : 100 < num_failed
    · rw [hstep, if_pos hnf]
    · rw [hstep, if_neg hnf,
        if_neg (by omega : ¬ task.attempt < task.max_retries)]

/-- C6 witness: failed child (`rc = 1`), 5 failed tasks in the job,
`attempt = 0 < max_retries = 3`: a retry is submitted and the retry-id lands
in the cache with count 0. -/
theorem run_task_failure_policy_witness :
    (run_task ⟨30, none, 0, 3, "j", "r"⟩ true (fun _ => Except.ok ⟨["./run.sh"], ""⟩)
        (1, [], []) false 5 ⟨[], 100, 10⟩).1.submitted_retry = true
    ∧ dictLookup ((run_task ⟨30, none, 0, 3, "j", "r"⟩ true
        (fun _ => Except.ok ⟨["./run.sh"], ""⟩)
        (1, [], []) false 5 ⟨[], 100, 10⟩).2).cache "r" = some 0 :=
  (run_task_failure_policy ⟨30, none, 0, 3, "j", "r"⟩
      (fun _ => Except.ok ⟨["./run.sh"], ""⟩) (1, [], []) false 5 ⟨[], 100, 10⟩
      ⟨["./run.sh"], ""⟩ rfl (by decide)).2.1 (by decide) (by decide)

/-- C9: whenever `run_task` reports a finished outcome with
`result_code = 0`, the reported stdout and stderr are both discarded
(slave.py 276-278), regardless of what the child wrote. -/
theorem run_task_success_discards_output (task : TaskSpec) (mark : Bool)
    (outs : Nat → Except String Manifest) (child : Int × List String × List String)
    (archive : Bool) (num_failed : Nat) (cache : RetryCache) (f : Finished)
    (hfin : (run_task task mark outs child archive num_failed cache).1.finished = some f)
    (hrc : f.result_code = 0) :
    f.stdout = none ∧ f.stderr = none := by
  cases mark with
  | false => simp [run_task] at hfin
  | true =>
    simp only [run_task, Bool.true_eq_false, if_false] at hfin
    cases hres : (download_task_files_with_retries outs).result with
    | error e =>
      rw [hres] at hfin
      simp only [ne_eq] at hfin
      split_ifs at hfin <;>
        (simp only [Option.some.injEq] at hfin; subst hfin;
         exact absurd (show (-2 : Int) = 0 from hrc) (by decide))
    | ok m =>
      rw [hres] at hfin
      by_cases hc : child.1 = 0
      · simp only [hc, if_pos, ne_eq] at hfin
        split_ifs at hfin <;>
          (simp only [Option.some.injEq] at hfin; subst hfin; exact ⟨rfl, rfl⟩)
      · simp only [hc, if_neg, ne_eq] at hfin
        split_ifs at hfin <;>
          (simp only [Option.some.injEq] at hfin; subst hfin;
           exact absurd (show child.1 = 0 from hrc) hc)

/-- C9 witness: a child that exits 0 after writing output; the reported
record carries `stdout = none` and `stderr = none`. -/
theorem run_task_success_discards_output_witness :
    (run_task ⟨30, none, 0, 3, "j", "r"⟩ true (fun _ => Except.ok ⟨["./run.sh"], ""⟩)
        (0, ["out"], ["err"]) true 0 ⟨[], 100, 10⟩).1.finished
      = some ⟨0, none, none, true⟩
    ∧ (⟨0, none, none, true⟩ : Finished).stdout = none
    ∧ (⟨0, none, none, true⟩ : Finished).stderr = none :=
  ⟨rfl,
   run_task_success_discards_output ⟨30, none, 0, 3, "j", "r"⟩ true
     (fun _ => Except.ok ⟨["./run.sh"], ""⟩) (0, ["out"], ["err"]) true 0
     ⟨[], 100, 10⟩ ⟨0, none, none, true⟩ rfl rfl⟩

/-! ## Artifact archiver (`make_archive`, slave.py 118-164)

The filesystem is an oracle `FS`: `realpath` models `os.path.realpath`
(symlink resolution) and `size` models `os.stat(...).st_size`.  The matches
produced by `glob2.iglob(test_dir + "/" + g)` for each glob `g` are given as
one list per glob.  The zip is a list of entries: `myzip.write(path, arcname)`
stores the file at `path` (`ZipData.fileRef`), `myzip.writestr(arcname, s)`
stores literal text (`ZipData.text`). -/

structure FS where
  realpath : String → String
  size : String → Nat

/-- Python `str.startswith`, on character lists (the check at slave.py 132). -/
def strStartsWith (s pre : String) : Bool :=
  pre.data.isPrefixOf s.data

/-- Models `os.path.relpath p d` for the only case the in-directory archive
names exercise: a path lying strictly under `d` loses the `d ++ "/"` prefix;
any other path is kept as is (real `relpath` would produce a `..`-path, which
the claims here never inspect). -/
def relpath (p d : String) : String :=
  if strStartsWith p (d ++ "/") then String.mk (p.data.drop (d.data.length + 1))
  else p

/-- The `while arcname.startswith("/")` loop of slave.py 160-161. -/
def stripLeadingSlashesList : List Char → List Char
  | [] => []
  | c :: rest => if c = '/' then stripLeadingSlashesList rest else c :: rest

def stripLeadingSlashes (s : String) : String :=
  String.mk (stripLeadingSlashesList s.data)

inductive ZipData where
  | fileRef : String → ZipData
  | text : String → ZipData
deriving DecidableEq

structure ZipEntry where
  name : String
  data : ZipData
deriving DecidableEq

/-- 200 MiB, the uncompressed-size bound (slave.py 142). -/
def archive_max_size : Nat := 200 * 1024 * 1024

/-- The `_ARCHIVE_TOO_BIG_` sentinel text (slave.py 151-152); the two `%d`
interpolations carry the two sizes. -/
def tooBigMsg (total_size max_size : Nat) : String :=
  "Size of matched uncompressed test artifacts exceeded maximum size"
    ++ "(" ++ toString total_size ++ " bytes > " ++ toString max_size ++ " bytes)!"

/-- The body of the glob-collection loop (slave.py 130-136): resolve the
match, drop it if its canonical path fails the `startswith(test_dir)` check,
otherwise count its size (before deduplication, as the source does) and add
the canonical path to the match set (kept as an insertion-ordered
duplicate-free list). -/
def collectOne (fs : FS) (test_dir : String) (acc : List String × Nat)
    (m : String) : List String × Nat :=
  let canonical := fs.realpath m
  if strStartsWith canonical test_dir then
    (if canonical ∈ acc.1 then acc.1 else acc.1 ++ [canonical],
     acc.2 + fs.size canonical)
  else acc

/-- The full collection phase over all globs (slave.py 127-138): returns
`all_matched` and `total_size`. -/
def collectGlobs (fs : FS) (test_dir : String) (globs : List (List String)) :
    List String × Nat :=
  globs.foldl (fun acc g => g.foldl (collectOne fs test_dir) acc) ([], 0)

/-- `Slave.make_archive` (slave.py 118-164): `none` models returning no
archive (`test_dir` absent, no globs, or no retained match); otherwise the
list of zip entries. -/
def make_archive (fs : FS) (test_dir? : Option String)
    (globs? : Option (List (List String))) : Option (List ZipEntry) :=
  match test_dir? with
  | none => none
  | some test_dir =>
    match globs? with
    | none => none
    | some globs =>
      if globs.length = 0 then none
      else
        let pr := collectGlobs fs test_dir globs
        if pr.1.length = 0 then none
        else if archive_max_size < pr.2 then
          some [⟨"_ARCHIVE_TOO_BIG_", ZipData.text (tooBigMsg pr.2 archive_max_size)⟩]
        else
          some (pr.1.map (fun m =>
            ⟨stripLeadingSlashes (relpath m test_dir), ZipData.fileRef m⟩))

/-- The claim's "canonical path lies within directory `d`": equals `d` or
extends `d` past a path separator.  (This is the property the security policy
asserts; the code's `startswith` check is strictly weaker.) -/
def isWithin (p d : String) : Bool :=
  p == d || strStartsWith p (d ++ "/")

/-- C7 (failing input): `test_dir = "/tmp/work"`; the single glob matches
`/tmp/work/link`, a symlink whose canonical path is
`/tmp/work.evil/secret` — a path *outside* the work directory that
nevertheless passes the bare `startswith(test_dir)` prefix check, so the
escaping file is archived instead of discarded. -/
theorem make_archive_symlink_escape :
    (make_archive
        ⟨fun p => if p = "/tmp/work/link" then "/tmp/work.evil/secret" else p,
         fun _ => 1⟩
        (some "/tmp/work") (some [["/tmp/work/link"]])).map
        (fun es => es.map ZipEntry.data)
      = some [ZipData.fileRef "/tmp/work.evil/secret"]
    ∧ isWithin "/tmp/work.evil/secret" "/tmp/work" = false := by
  constructor
  · rfl
  · rfl

/-- C8: the archiver's decision table on the collected matches `ms` and
accumulated total size `ts`: no match → no archive; matches with
`ts ≤ 200 MiB` (the boundary included) → an archive of exactly the retained
matches under their work-dir-relative, slash-stripped names; `ts > 200 MiB` →
a single `_ARCHIVE_TOO_BIG_` text entry carrying both sizes and none of the
matched files. -/
theorem make_archive_decision_table (fs : FS) (test_dir : String)
    (globs : List (List String)) (ms : List String) (ts : Nat)
    (hcol : collectGlobs fs test_dir globs = (ms, ts)) :
    (ms = [] → make_archive fs (some test_dir) (some globs) = none)
    ∧ (ms ≠ [] → ts ≤ archive_max_size →
        make_archive fs (some test_dir) (some globs)
          = some (ms.map (fun m =>
              ⟨stripLeadingSlashes (relpath m test_dir), ZipData.fileRef m⟩)))
    ∧ (ms ≠ [] → archive_max_size < ts →
        make_archive fs (some test_dir) (some globs)
          = some [⟨"_ARCHIVE_TOO_BIG_", ZipData.text (tooBigMsg ts archive_max_size)⟩]
        ∧ ∀ m ∈ ms, ∀ es, make_archive fs (some test_dir) (some globs) = some es →
            ∀ e ∈ es, e.data ≠ ZipData.fileRef m) := by
  by_cases hg : globs.length = 0
  · have hnil : globs = [] := List.length_eq_zero.mp hg
    subst hnil
    have hms : ms = [] := by
      have h0 : (([], 0) : List String × Nat) = (ms, ts) := by
        simpa [collectGlobs] using hcol
      exact (Prod.mk.injEq _ _ _ _ ▸ h0).1.symm
    refine ⟨fun _ => by simp [make_archive], fun hne => absurd hms hne,
           fun hne => absurd hms hne⟩
  · have harch : make_archive fs (some test_dir) (some globs) =
        (if ms.length = 0 then none
         else if archive_max_size < ts then
           some [⟨"_ARCHIVE_TOO_BIG_", ZipData.text (tooBigMsg ts archive_max_size)⟩]
         else some (ms.map (fun m =>
           ⟨stripLeadingSlashes (relpath m test_dir), ZipData.fileRef m⟩))) := by
      simp only [make_archive, hcol, if_neg hg]
    refine ⟨?_, ?_, ?_⟩
    · intro hms
      rw [harch, if_pos (by simp [hms])]
    · intro hne hle
      rw [harch, if_neg (by simpa [List.length_eq_zero] using hne),
        if_neg (by omega : ¬ archive_max_size < ts)]
    · intro hne hgt
      have hbig : make_archive fs (some test_dir) (some globs)
          = some [⟨"_ARCHIVE_TOO_BIG_", ZipData.text (tooBigMsg ts archive_max_size)⟩] := by
        rw [harch, if_neg (by simpa [List.length_eq_zero] using hne), if_pos hgt]
      refine ⟨hbig, ?_⟩
      intro m _ es hes e he
      rw [hbig] at hes
      simp only [Option.some.injEq] at hes
      subst hes
      rcases List.mem_singleton.mp he with rfl
      simp

/-- C8 witness: two 10-byte files under `/d` produce a normal archive with
work-dir-relative names; the no-match case yields no archive. -/
theorem make_archive_decision_table_witness :
    make_archive ⟨fun p => p, fun _ => 10⟩ (some "/d") (some [["/d/a", "/d/b"]])
      = some [⟨"a", ZipData.fileRef "/d/a"⟩, ⟨"b", ZipData.fileRef "/d/b"⟩]
    ∧ make_archive ⟨fun p => p, fun _ => 10⟩ (some "/d") (some [["/outside"]]) = none :=
  ⟨by
    have h := (make_archive_decision_table ⟨fun p => p, fun _ => 10⟩ "/d"
      [["/d/a", "/d/b"]] ["/d/a", "/d/b"] 20 rfl).2.1 (by decide) (by decide)
    rw [h]
    rfl,
   (make_archive_decision_table ⟨fun p => p, fun _ => 10⟩ "/d"
      [["/outside"]] [] 0 rfl).1 rfl⟩

end DistTest
